import Mathlib

/-!
Verification development for the task-tracker CLI
(src/python/task-tracker/oop/task-cli.py).

The core component is the TaskStorage class: it owns a dict
with a list of task dicts under the key tasks and a monotone id counter
under the key count, loads it from a JSON file at startup and rewrites the
whole file after every mutation.  Below, the storage operations are
embedded as pure Lean functions over an explicit state; every operation
returns the outcome, the post in-memory state and the content written to
the file (if any), mirroring the Python control flow, including in-place
mutations that happen before an exception is raised.
-/

namespace TaskCli

/-- Whitespace characters stripped by the Python method strip with no
arguments (space, tab, newline, carriage return, vertical tab, form feed). -/
def isPySpace (c : Char) : Bool :=
  c = ' ' || c = '\t' || c = '\n' || c = '\r' || c = '\x0b' || c = '\x0c'

/-- Truth of the Python test committed by new_task: description.strip()
is falsy exactly when every character of the string is whitespace. -/
def pyStripIsEmpty (s : String) : Bool :=
  s.toList.all isPySpace

/-- Accumulate a decimal value from a nonempty list of ASCII digits;
none when the list is empty or holds a non-digit. -/
def digitsToNat (cs : List Char) : Option Nat :=
  if cs.isEmpty then none
  else cs.foldl
    (fun acc c => acc.bind (fun a => if c.isDigit then some (a * 10 + (c.toNat - '0'.toNat)) else none))
    (some 0)

/-- The Python conversion int applied to a string: surrounding whitespace
is ignored, an optional sign is followed by at least one digit. -/
def parseIntStr (s : String) : Option Int :=
  let cs := ((s.toList.dropWhile isPySpace).reverse.dropWhile isPySpace).reverse
  match cs with
  | [] => none
  | '+' :: rest => (digitsToNat rest).map Int.ofNat
  | '-' :: rest => (digitsToNat rest).map (fun n => -(Int.ofNat n))
  | _ => (digitsToNat cs).map Int.ofNat

/-- The task_id argument of update_task and delete_task has Python type
Union of str and int. -/
inductive PyId where
  | int (n : Int)
  | str (s : String)
deriving DecidableEq

/-- The Python conversion int applied to a task_id argument; none models
the ValueError branch of the try block. -/
def pyToInt : PyId → Option Int
  | .int n => some n
  | .str s => parseIntStr s

/-- A task dict as built by new_task: keys id, description, status,
createdAt, updatedAt (updatedAt is None until the first update). -/
structure Task where
  id : Int
  description : String
  status : String
  createdAt : String
  updatedAt : Option String
deriving DecidableEq

/-- The storage state self.data: the list under key tasks and the counter
under key count. -/
structure StoreState where
  tasks : List Task
  count : Int
deriving DecidableEq

/-- The two error kinds of the design: every ValueError raised by
validation is InvalidArgument, the missing-task ValueError is NotFound. -/
inductive TErr where
  | invalidArgument
  | notFound
deriving DecidableEq

/-- Outcome of one storage operation: the returned value or raised error,
the in-memory state when control leaves the method (also on a raise), and
the full state written to the file by _save_data, if the write happened. -/
structure OpOut (α : Type) where
  result : Except TErr α
  state : StoreState
  written : Option StoreState

instance {ε α : Type} [DecidableEq ε] [DecidableEq α] : DecidableEq (Except ε α) := fun
  | .ok a, .ok b =>
    if h : a = b then .isTrue (by rw [h]) else .isFalse (by intro hh; cases hh; exact h rfl)
  | .ok _, .error _ => .isFalse (by intro h; cases h)
  | .error _, .ok _ => .isFalse (by intro h; cases h)
  | .error e, .error f =>
    if h : e = f then .isTrue (by rw [h]) else .isFalse (by intro hh; cases hh; exact h rfl)

/-- The valid_statuses list of update_task. -/
def validStatuses : List String := ["todo", "in-progress", "done"]

/-- The Python test: status is truthy and not in valid_statuses.  The
empty string is falsy, so it passes this check. -/
def statusBad : Option String → Bool
  | none => false
  | some s => s ≠ "" && !(validStatuses.contains s)

/-- The body of the update loop once the matching task is found: replace
the description if truthy, the status if truthy, always stamp updatedAt. -/
def applyUpd (t : Task) (description : String) (status : Option String) (now : String) : Task :=
  let t1 := if description ≠ "" then { t with description := description } else t
  let t2 := match status with
            | some s => if s ≠ "" then { t1 with status := s } else t1
            | none => t1
  { t2 with updatedAt := some now }

/-- The scan of update_task: walk the list in order, rewrite the first
task whose id matches and stop; none when no task matches. -/
def updateFirst (n : Int) (description : String) (status : Option String) (now : String) :
    List Task → Option (List Task)
  | [] => none
  | t :: rest =>
    if t.id = n then some (applyUpd t description status now :: rest)
    else (updateFirst n description status now rest).map (fun l => t :: l)

/-- TaskStorage.new_task: reject a description whose strip is empty,
otherwise append a fresh task with id count + 1, bump count, save. -/
def new_task (st : StoreState) (description : String) (now : String) : OpOut Int :=
  if pyStripIsEmpty description then ⟨.error .invalidArgument, st, none⟩
  else
    let new_count := st.count + 1
    let t : Task := { id := new_count, description := description, status := "todo",
                      createdAt := now, updatedAt := none }
    let st' : StoreState := ⟨st.tasks ++ [t], new_count⟩
    ⟨.ok new_count, st', some st'⟩

/-- TaskStorage.update_task: convert the id, validate a truthy status,
rewrite the first matching task, raise NotFound when none matched, save. -/
def update_task (st : StoreState) (tid : PyId) (description : String)
    (status : Option String) (now : String) : OpOut Unit :=
  match pyToInt tid with
  | none => ⟨.error .invalidArgument, st, none⟩
  | some n =>
    if statusBad status then ⟨.error .invalidArgument, st, none⟩
    else
      match updateFirst n description status now st.tasks with
      | none => ⟨.error .notFound, st, none⟩
      | some ts =>
        let st' : StoreState := ⟨ts, st.count⟩
        ⟨.ok (), st', some st'⟩

/-- TaskStorage.delete_task: convert the id, reassign tasks to the list
without the matching ids, raise NotFound when the length did not change
(the reassignment itself stays, as in the source), save otherwise. -/
def delete_task (st : StoreState) (tid : PyId) : OpOut Unit :=
  match pyToInt tid with
  | none => ⟨.error .invalidArgument, st, none⟩
  | some n =>
    let remaining := st.tasks.filter (fun t => t.id ≠ n)
    if remaining.length = st.tasks.length then
      ⟨.error .notFound, ⟨remaining, st.count⟩, none⟩
    else
      ⟨.ok (), ⟨remaining, st.count⟩, some ⟨remaining, st.count⟩⟩

/-- What list_tasks prints: the empty message, the filtered empty message,
or the table over the selected tasks in insertion order. -/
inductive ListOutput where
  | noTasks
  | noTasksWithStatus (s : String)
  | table (ts : List Task)
deriving DecidableEq

/-- TaskStorage.list_tasks: the whole-list emptiness test comes first, the
filter is applied only afterwards and only when the filter is truthy. -/
def list_tasks (st : StoreState) (statusFilter : String) : ListOutput :=
  let tasks := st.tasks
  if tasks.isEmpty then .noTasks
  else if statusFilter ≠ "" then
    let filtered := tasks.filter (fun t => t.status == statusFilter)
    if filtered.isEmpty then .noTasksWithStatus statusFilter
    else .table filtered
  else .table tasks

/-- A JSON value, the result of json.load on the persisted file. -/
inductive JsonVal where
  | null
  | bool (b : Bool)
  | num (n : Int)
  | str (s : String)
  | arr (xs : List JsonVal)
  | obj (fields : List (String × JsonVal))

/-- Leading-segment test on character lists, written out to keep the
substring test below self-contained. -/
def charsLead : List Char → List Char → Bool
  | [], _ => true
  | _ :: _, [] => false
  | a :: as, b :: bs => a = b && charsLead as bs

/-- Contiguous-occurrence test on character lists. -/
def charsSub (needle : List Char) : List Char → Bool
  | [] => needle.isEmpty
  | b :: t => charsLead needle (b :: t) || charsSub needle t

/-- The Python membership operator applied as key in v for a string key:
substring test on a string, element equality on a list, key lookup on a
dict; none models the TypeError raised on null, booleans and numbers. -/
def pyContains (v : JsonVal) (key : String) : Option Bool :=
  match v with
  | .null | .bool _ | .num _ => none
  | .str s => some (charsSub key.toList s.toList)
  | .arr xs => some (xs.any (fun x => match x with | .str s => s == key | _ => false))
  | .obj fs => some (fs.any (fun p => p.1 == key))

/-- The condition the persisted file is in when TaskStorage starts:
absent, present but zero-sized, present but rejected by json.load, or
present and parsed to a value. -/
inductive FileContent where
  | absent
  | empty
  | malformed
  | parsed (v : JsonVal)

/-- What __init__ leaves behind: the final self.data together with
whether _save_data ran, or an uncaught exception escaping main. -/
inductive InitOutcome where
  | ok (data : JsonVal) (saved : Bool)
  | crash

/-- The default dict assigned before the file is examined. -/
def defaultData : JsonVal := .obj [("tasks", .arr []), ("count", .num 0)]

/-- TaskStorage.__init__: save the default when the file is absent or
empty, or when json.load raises JSONDecodeError; when the file parses,
keep the parsed dict only if both membership tests succeed, keep the
default otherwise without saving; the membership test itself raises an
uncaught TypeError on a value that supports no membership (the and is
short-circuiting, as in the source). -/
def storeInit (fc : FileContent) : InitOutcome :=
  match fc with
  | .absent => .ok defaultData true
  | .empty => .ok defaultData true
  | .malformed => .ok defaultData true
  | .parsed v =>
    match pyContains v "tasks" with
    | none => .crash
    | some false => .ok defaultData false
    | some true =>
      match pyContains v "count" with
      | none => .crash
      | some false => .ok defaultData false
      | some true => .ok v false

/-- The JSON object json.dump writes for one task dict. -/
def encodeTask (t : Task) : JsonVal :=
  .obj [("id", .num t.id), ("description", .str t.description),
        ("status", .str t.status), ("createdAt", .str t.createdAt),
        ("updatedAt", match t.updatedAt with | some u => .str u | none => .null)]

/-- The JSON object json.dump writes for the whole state in _save_data. -/
def encodeState (st : StoreState) : JsonVal :=
  .obj [("tasks", .arr (st.tasks.map encodeTask)), ("count", .num st.count)]

/-- Collect a list of optional values, none if any entry is none. -/
def optList : List (Option α) → Option (List α)
  | [] => some []
  | o :: rest => o.bind (fun a => (optList rest).map (fun l => a :: l))

/-- The typed reading of one task dict, as the field accesses of the
operations perform it (id, description, status, createdAt, updatedAt). -/
def decodeTask : JsonVal → Option Task
  | .obj [("id", .num i), ("description", .str d), ("status", .str s),
          ("createdAt", .str c), ("updatedAt", u)] =>
    match u with
    | .null => some ⟨i, d, s, c, none⟩
    | .str us => some ⟨i, d, s, c, some us⟩
    | _ => none
  | _ => none

/-- The typed reading of the whole persisted object: the task list under
key tasks and the counter under key count. -/
def decodeState : JsonVal → Option StoreState
  | .obj [("tasks", .arr ts), ("count", .num c)] =>
    (optList (ts.map decodeTask)).map (fun l => ⟨l, c⟩)
  | _ => none

/-- One dispatched action together with its operands; the timestamp the
operation would take from the clock is carried as data. -/
inductive Op where
  | create (d : String) (now : String)
  | update (tid : PyId) (d : String) (s : Option String) (now : String)
  | delete (tid : PyId)
  | list (f : String)

/-- Run one operation on the state; the optional integer is the id a
successful create returns (the other operations return no id). -/
def stepOp (st : StoreState) : Op → StoreState × Option Int
  | .create d now =>
    let r := new_task st d now
    (r.state, match r.result with | .ok i => some i | .error _ => none)
  | .update tid d s now => ((update_task st tid d s now).state, none)
  | .delete tid => ((delete_task st tid).state, none)
  | .list _ => (st, none)

/-- Run a sequence of operations, collecting the ids returned by the
successful creates in order. -/
def runOps (st : StoreState) : List Op → StoreState × List Int
  | [] => (st, [])
  | op :: rest =>
    let s1 := stepOp st op
    let s2 := runOps s1.1 rest
    (s2.1, s1.2.toList ++ s2.2)

/-- Whether an operation is a create whose description passes the
emptiness check; such creates are exactly the ones that return an id. -/
def goodCreate : Op → Bool
  | .create d _ => !pyStripIsEmpty d
  | _ => false

/-- How many operations of a sequence are id-returning creates. -/
def goodCreates (ops : List Op) : Nat :=
  (ops.filter goodCreate).length

/-- The state a first run starts from: the default empty data. -/
def initState : StoreState := ⟨[], 0⟩

/-- The documented store invariant: every task id is at most count and
ids are unique across the sequence. -/
def Inv (st : StoreState) : Prop :=
  (∀ t ∈ st.tasks, t.id ≤ st.count) ∧ (st.tasks.map Task.id).Nodup

instance (st : StoreState) : Decidable (Inv st) := by
  unfold Inv; infer_instance

/-! Helper lemmas about the embedded operations. -/

theorem applyUpd_id (t : Task) (d : String) (s : Option String) (now : String) :
    (applyUpd t d s now).id = t.id := by
  unfold applyUpd
  rcases s with _ | sv
  · by_cases hd : d = "" <;> simp [hd]
  · by_cases hd : d = "" <;> by_cases hs : sv = "" <;> simp [hd, hs]

theorem applyUpd_desc (t : Task) (d now : String) (hd : d ≠ "") :
    applyUpd t d none now = { t with description := d, updatedAt := some now } := by
  simp [applyUpd, hd]

theorem updateFirst_eq_none (n : Int) (d : String) (s : Option String) (now : String)
    (ts : List Task) : updateFirst n d s now ts = none ↔ n ∉ ts.map Task.id := by
  induction ts with
  | nil => simp [updateFirst]
  | cons t rest ih =>
    by_cases h : t.id = n
    · simp [updateFirst, h]
    · simp only [updateFirst, if_neg h, Option.map_eq_none', ih, List.map_cons,
        List.mem_cons, not_or]
      exact ⟨fun hh => ⟨fun he => h he.symm, hh⟩, fun hh => hh.2⟩

theorem updateFirst_map_id (n : Int) (d : String) (s : Option String) (now : String)
    (ts ts' : List Task) (h : updateFirst n d s now ts = some ts') :
    ts'.map Task.id = ts.map Task.id := by
  induction ts generalizing ts' with
  | nil => simp [updateFirst] at h
  | cons t rest ih =>
    by_cases ht : t.id = n
    · simp only [updateFirst, if_pos ht, Option.some_inj] at h
      subst h
      simp [applyUpd_id]
    · simp only [updateFirst, if_neg ht, Option.map_eq_some'] at h
      obtain ⟨l, hl, rfl⟩ := h
      simp [ih l hl]

theorem updateFirst_split (n : Int) (d : String) (s : Option String) (now : String)
    (pre post : List Task) (t : Task) (ht : t.id = n) (hpre : ∀ u ∈ pre, u.id ≠ n) :
    updateFirst n d s now (pre ++ t :: post) = some (pre ++ applyUpd t d s now :: post) := by
  induction pre with
  | nil => simp [updateFirst, ht]
  | cons u rest ih =>
    have hu : u.id ≠ n := hpre u (by simp)
    simp [updateFirst, hu, ih (fun x hx => hpre x (by simp [hx]))]

theorem update_task_count (st : StoreState) (tid : PyId) (d : String) (s : Option String)
    (now : String) : (update_task st tid d s now).state.count = st.count := by
  unfold update_task
  cases hp : pyToInt tid with
  | none => rfl
  | some n =>
    dsimp only
    by_cases hs : statusBad s = true
    · simp [hs]
    · simp only [hs, if_false]
      cases hu : updateFirst n d s now st.tasks <;> rfl

theorem update_task_map_id (st : StoreState) (tid : PyId) (d : String) (s : Option String)
    (now : String) :
    ((update_task st tid d s now).state.tasks).map Task.id = st.tasks.map Task.id := by
  unfold update_task
  cases hp : pyToInt tid with
  | none => rfl
  | some n =>
    dsimp only
    by_cases hs : statusBad s = true
    · simp [hs]
    · simp only [hs, if_false]
      cases hu : updateFirst n d s now st.tasks with
      | none => rfl
      | some ts => exact updateFirst_map_id n d s now st.tasks ts hu

theorem new_task_ok (st : StoreState) (d now : String) (h : pyStripIsEmpty d = false) :
    new_task st d now =
      ⟨.ok (st.count + 1),
       ⟨st.tasks ++ [⟨st.count + 1, d, "todo", now, none⟩], st.count + 1⟩,
       some ⟨st.tasks ++ [⟨st.count + 1, d, "todo", now, none⟩], st.count + 1⟩⟩ := by
  simp [new_task, h]

theorem delete_task_count (st : StoreState) (tid : PyId) :
    (delete_task st tid).state.count = st.count := by
  unfold delete_task
  cases hp : pyToInt tid with
  | none => rfl
  | some n =>
    dsimp only
    split <;> rfl

theorem filter_length_ne_exists {α : Type} (p : α → Bool) (l : List α)
    (h : (l.filter p).length ≠ l.length) : ∃ a ∈ l, p a = false := by
  by_contra hc
  push_neg at hc
  refine h ?_
  rw [List.filter_eq_self.mpr (fun a ha => ?_)]
  cases hpa : p a with
  | true => rfl
  | false => exact absurd hpa (hc a ha)

theorem stepOp_char (st : StoreState) (op : Op) :
    (stepOp st op).1.count = st.count + (if goodCreate op then 1 else 0) ∧
    (stepOp st op).2 = (if goodCreate op then some (st.count + 1) else none) := by
  cases op with
  | create d now =>
    by_cases h : pyStripIsEmpty d = true
    · simp [stepOp, new_task, h, goodCreate]
    · have h' : pyStripIsEmpty d = false := by simpa using h
      simp [stepOp, new_task_ok st d now h', goodCreate, h']
  | update tid d s now => simp [stepOp, goodCreate, update_task_count]
  | delete tid => simp [stepOp, goodCreate, delete_task_count]
  | list f => simp [stepOp, goodCreate]

theorem runOps_char (st : StoreState) (ops : List Op) :
    (runOps st ops).1.count = st.count + goodCreates ops ∧
    (runOps st ops).2 =
      (List.range (goodCreates ops)).map (fun i : Nat => st.count + 1 + (i : Int)) := by
  induction ops generalizing st with
  | nil => simp [runOps, goodCreates]
  | cons op rest ih =>
    obtain ⟨hc, hr⟩ := stepOp_char st op
    obtain ⟨ihc, ihr⟩ := ih (stepOp st op).1
    by_cases hg : goodCreate op = true
    · have hcount : (stepOp st op).1.count = st.count + 1 := by rw [hc, if_pos hg]
      have hgc : goodCreates (op :: rest) = goodCreates rest + 1 := by
        simp [goodCreates, List.filter_cons, hg, Nat.add_comm]
      constructor
      · show (runOps (stepOp st op).1 rest).1.count = _
        rw [ihc, hcount, hgc]
        push_cast
        ring
      · show (stepOp st op).2.toList ++ (runOps (stepOp st op).1 rest).2 = _
        rw [hr, if_pos hg, ihr, hcount, hgc, List.range_succ_eq_map]
        simp only [Option.toList_some, List.map_cons, List.map_map, List.cons_append,
          List.nil_append, List.cons.injEq]
        constructor
        · push_cast; ring
        · apply List.map_congr_left
          intro i _
          simp only [Function.comp_apply]
          push_cast
          ring
    · have hcount : (stepOp st op).1.count = st.count := by
        rw [hc, if_neg hg]; ring
      have hgc : goodCreates (op :: rest) = goodCreates rest := by
        simp [goodCreates, List.filter_cons, hg]
      constructor
      · show (runOps (stepOp st op).1 rest).1.count = _
        rw [ihc, hcount, hgc]
      · show (stepOp st op).2.toList ++ (runOps (stepOp st op).1 rest).2 = _
        rw [hr, if_neg hg, ihr, hcount, hgc]
        simp

/-! Claim theorems. -/

/-- Claim C7: for every description that is empty or whitespace-only,
new_task raises InvalidArgument, the state is unchanged and nothing is
written to the file. -/
theorem create_rejects_blank (st : StoreState) (d now : String)
    (h : pyStripIsEmpty d = true) :
    new_task st d now = ⟨.error .invalidArgument, st, none⟩ := by
  simp [new_task, h]

/-- Witness for create_rejects_blank: the empty and an all-space
description are both rejected without a state change or a write. -/
theorem create_rejects_blank_witness :
    new_task ⟨[], 0⟩ "" "t" = ⟨.error .invalidArgument, ⟨[], 0⟩, none⟩ ∧
    new_task ⟨[⟨1, "a", "todo", "t0", none⟩], 1⟩ "   " "t" =
      ⟨.error .invalidArgument, ⟨[⟨1, "a", "todo", "t0", none⟩], 1⟩, none⟩ :=
  ⟨create_rejects_blank _ _ _ (by decide), create_rejects_blank _ _ _ (by decide)⟩

/-- Claim C5, counterexample: the empty string is a provided status value
outside the valid set, yet update_task succeeds with it (Python truthiness
makes the validation skip falsy strings), refuting the claim as stated. -/
theorem update_empty_status_accepted :
    (update_task ⟨[⟨1, "a", "todo", "t0", none⟩], 1⟩ (.int 1) "" (some "") "t1").result =
      .ok () ∧
    validStatuses.contains "" = false := by
  exact ⟨by decide, by decide⟩

/-- Claim C5, amended: for every provided non-empty status value outside
the valid set, update_task raises InvalidArgument with the state unchanged
and nothing written (a provided empty status is treated as absent). -/
theorem update_rejects_bad_status (st : StoreState) (tid : PyId) (d s now : String)
    (hne : s ≠ "") (hs : validStatuses.contains s = false) :
    update_task st tid d (some s) now = ⟨.error .invalidArgument, st, none⟩ := by
  have hmem : s ∉ validStatuses := by simpa using hs
  have hbad : statusBad (some s) = true := by simp [statusBad, hne, hmem]
  unfold update_task
  cases hp : pyToInt tid with
  | none => rfl
  | some n => simp [hbad]

/-- Witness for update_rejects_bad_status at the status bogus. -/
theorem update_rejects_bad_status_witness :
    update_task ⟨[⟨1, "a", "todo", "t0", none⟩], 1⟩ (.int 1) "x" (some "bogus") "t1" =
      ⟨.error .invalidArgument, ⟨[⟨1, "a", "todo", "t0", none⟩], 1⟩, none⟩ :=
  update_rejects_bad_status _ _ _ _ _ (by decide) (by decide)

/-- Claim C4: update_task with an id not convertible to an integer raises
InvalidArgument, and with an integer id matching no task (the status
argument passing its own check) raises NotFound; in both cases the state
is unchanged and nothing is written. -/
theorem update_bad_or_missing_id (st : StoreState) (tid : PyId) (d : String)
    (s : Option String) (now : String) :
    (pyToInt tid = none →
      update_task st tid d s now = ⟨.error .invalidArgument, st, none⟩) ∧
    (∀ n, pyToInt tid = some n → statusBad s = false → n ∉ st.tasks.map Task.id →
      update_task st tid d s now = ⟨.error .notFound, st, none⟩) := by
  constructor
  · intro h
    unfold update_task
    rw [h]
  · intro n hn hs hmem
    unfold update_task
    rw [hn]
    simp only [hs, if_false, Bool.false_eq_true]
    rw [(updateFirst_eq_none n d s now st.tasks).mpr hmem]

/-- Witness for update_bad_or_missing_id: a non-numeric id string gives
InvalidArgument, a numeric id with no matching task gives NotFound. -/
theorem update_bad_or_missing_id_witness :
    update_task ⟨[], 0⟩ (.str "abc") "x" none "t" =
      ⟨.error .invalidArgument, ⟨[], 0⟩, none⟩ ∧
    update_task ⟨[], 0⟩ (.str "5") "x" none "t" =
      ⟨.error .notFound, ⟨[], 0⟩, none⟩ :=
  ⟨(update_bad_or_missing_id _ _ _ _ _).1 (by decide),
   (update_bad_or_missing_id _ _ _ _ _).2 5 (by decide) (by decide) (by decide)⟩

/-- Claim C9, counterexample: on an empty store with the filter done,
list_tasks prints the unfiltered no-tasks message, not the filtered-form
message the claim requires (the whole-list emptiness test runs first). -/
theorem list_filter_empty_store_message :
    list_tasks ⟨[], 0⟩ "done" = .noTasks ∧
    ListOutput.noTasks ≠ ListOutput.noTasksWithStatus "done" :=
  ⟨rfl, by decide⟩

/-- Claim C9, amended: with an empty task list the unfiltered no-tasks
message is printed whatever the filter; the filtered-form message appears
exactly when the task list is non-empty, a filter is provided and no task
has that status. -/
theorem list_empty_result_messages (st : StoreState) (f : String) :
    (st.tasks = [] → list_tasks st f = .noTasks) ∧
    (st.tasks ≠ [] → f ≠ "" → st.tasks.filter (fun t => t.status == f) = [] →
      list_tasks st f = .noTasksWithStatus f) := by
  constructor
  · intro h
    simp [list_tasks, h]
  · intro h hf hfil
    simp [list_tasks, h, hf, hfil]

/-- Witness for list_empty_result_messages: both empty-result messages at
concrete states. -/
theorem list_empty_result_messages_witness :
    list_tasks ⟨[], 0⟩ "" = .noTasks ∧
    list_tasks ⟨[⟨1, "a", "todo", "t0", none⟩], 1⟩ "done" =
      .noTasksWithStatus "done" :=
  ⟨(list_empty_result_messages ⟨[], 0⟩ "").1 rfl,
   (list_empty_result_messages ⟨[⟨1, "a", "todo", "t0", none⟩], 1⟩ "done").2
     (by decide) (by decide) (by decide)⟩

/-- Claim C1, counterexample: a parsed object missing the required fields
makes __init__ keep the default data without persisting it (no save runs
on that path), and a parsed bare number makes the membership test raise an
uncaught TypeError; both refute the claim that every such fallback is
persisted without failing the process. -/
theorem init_missing_fields_not_saved :
    storeInit (.parsed (.obj [])) = .ok defaultData false ∧
    storeInit (.parsed (.num 42)) = .crash ∧
    InitOutcome.ok defaultData false ≠ InitOutcome.ok defaultData true :=
  ⟨rfl, rfl, fun h => by injection h with h1 h2; exact Bool.noConfusion h2⟩

/-- Claim C1, amended: an absent, empty or unparseable file makes __init__
persist the default state; a parsed value failing the field checks makes
it keep the default without persisting; the membership test on a parsed
value that supports no membership raises an uncaught TypeError. -/
theorem init_recovery_policy (v : JsonVal)
    (h : ¬(pyContains v "tasks" = some true ∧ pyContains v "count" = some true)) :
    storeInit .absent = .ok defaultData true ∧
    storeInit .empty = .ok defaultData true ∧
    storeInit .malformed = .ok defaultData true ∧
    (storeInit (.parsed v) = .ok defaultData false ∨ storeInit (.parsed v) = .crash) ∧
    (storeInit (.parsed v) = .crash ↔
      pyContains v "tasks" = none ∨
      (pyContains v "tasks" = some true ∧ pyContains v "count" = none)) := by
  refine ⟨rfl, rfl, rfl, ?_, ?_⟩ <;>
    · unfold storeInit
      cases ht : pyContains v "tasks" with
      | none => simp [ht]
      | some b =>
        cases b with
        | false => simp [ht]
        | true =>
          cases hc : pyContains v "count" with
          | none => simp [ht, hc]
          | some c =>
            cases c with
            | false => simp [ht, hc]
            | true => exact absurd ⟨ht, hc⟩ h

theorem decodeTask_encodeTask (t : Task) : decodeTask (encodeTask t) = some t := by
  rcases t with ⟨i, d, s, c, u⟩
  rcases u with _ | us <;> rfl

theorem optList_map_some {α : Type} (l : List α) : optList (l.map some) = some l := by
  induction l with
  | nil => rfl
  | cons a rest ih => simp [optList, ih]

theorem optList_decode (ts : List Task) :
    optList (ts.map (fun t => decodeTask (encodeTask t))) = some ts := by
  have h : ts.map (fun t => decodeTask (encodeTask t)) = ts.map some :=
    List.map_congr_left (fun t _ => decodeTask_encodeTask t)
  rw [h, optList_map_some]

/-- Claim C8: a state written by _save_data and read back by __init__ from
an uninterrupted file passes the field checks, is adopted verbatim as the
loaded data, and decodes to the identical task sequence and count. -/
theorem save_load_roundtrip (st : StoreState) :
    storeInit (.parsed (encodeState st)) = .ok (encodeState st) false ∧
    decodeState (encodeState st) = some st := by
  constructor
  · rfl
  · rcases st with ⟨ts, c⟩
    show decodeState (.obj [("tasks", .arr (ts.map encodeTask)), ("count", .num c)]) =
      some ⟨ts, c⟩
    simp only [decodeState, List.map_map]
    rw [show decodeTask ∘ encodeTask = (fun t => decodeTask (encodeTask t)) from rfl,
      optList_decode ts]
    rfl

/-- Claim C10: update_task with a non-empty description argument replaces
the description of the first matching task with it verbatim, even when it
is whitespace-only, while new_task rejects the same whitespace-only string;
the rest of the matched task keeps its fields except the refreshed
updatedAt stamp. -/
theorem update_sets_description (st : StoreState) (tid : PyId) (n : Int) (d now : String)
    (pre post : List Task) (t : Task)
    (hid : pyToInt tid = some n) (hd : d ≠ "")
    (hsplit : st.tasks = pre ++ t :: post) (ht : t.id = n) (hpre : ∀ u ∈ pre, u.id ≠ n) :
    update_task st tid d none now =
      ⟨.ok (),
       ⟨pre ++ { t with description := d, updatedAt := some now } :: post, st.count⟩,
       some ⟨pre ++ { t with description := d, updatedAt := some now } :: post, st.count⟩⟩ ∧
    (∀ st2 : StoreState, pyStripIsEmpty d = true →
      (new_task st2 d now).result = .error .invalidArgument) := by
  constructor
  · unfold update_task
    rw [hid]
    have hsb : statusBad none = false := rfl
    simp only [hsb, if_false, Bool.false_eq_true]
    rw [hsplit, updateFirst_split n d none now pre post t ht hpre,
      applyUpd_desc t d now hd]
  · intro st2 h
    simp [new_task, h]

/-- Witness for update_sets_description: a single-space description is
stored verbatim by update while create rejects it. -/
theorem update_sets_description_witness :
    update_task ⟨[⟨1, "a", "todo", "t0", none⟩], 1⟩ (.int 1) " " none "t1" =
      ⟨.ok (), ⟨[⟨1, " ", "todo", "t0", some "t1"⟩], 1⟩,
       some ⟨[⟨1, " ", "todo", "t0", some "t1"⟩], 1⟩⟩ ∧
    (new_task ⟨[], 0⟩ " " "t1").result = .error .invalidArgument := by
  have h := update_sets_description ⟨[⟨1, "a", "todo", "t0", none⟩], 1⟩ (.int 1) 1 " " "t1"
    [] [] ⟨1, "a", "todo", "t0", none⟩ (by decide) (by decide) rfl rfl (by simp)
  exact ⟨h.1, h.2 ⟨[], 0⟩ (by decide)⟩

/-- Claim C2: a successful create returns count + 1 for the pre-state
count and appends a task with status todo, the given creation stamp and no
updatedAt; over any operation sequence from the initial state the returned
create ids are exactly 1, 2, ..., k, a strictly increasing sequence
starting at 1, whatever deletions and updates intervene. -/
theorem create_id_sequence :
    (∀ (st : StoreState) (d now : String), pyStripIsEmpty d = false →
      (new_task st d now).result = .ok (st.count + 1) ∧
      (new_task st d now).state.tasks =
        st.tasks ++ [⟨st.count + 1, d, "todo", now, none⟩] ∧
      (new_task st d now).state.count = st.count + 1) ∧
    (∀ ops : List Op,
      (runOps initState ops).2 =
        (List.range (goodCreates ops)).map (fun i : Nat => (i : Int) + 1) ∧
      ((runOps initState ops).2).Pairwise (· < ·)) := by
  constructor
  · intro st d now h
    rw [new_task_ok st d now h]
    exact ⟨rfl, rfl, rfl⟩
  · intro ops
    have h := (runOps_char initState ops).2
    have heq : (runOps initState ops).2 =
        (List.range (goodCreates ops)).map (fun i : Nat => (i : Int) + 1) := by
      rw [h]
      apply List.map_congr_left
      intro i _
      show initState.count + 1 + (i : Int) = (i : Int) + 1
      simp [initState]
      ring
    refine ⟨heq, ?_⟩
    rw [heq]
    exact (List.pairwise_lt_range _).map _ (fun a b hab => by omega)

/-- Witness for create_id_sequence: a concrete create and a concrete
operation sequence with an intervening delete. -/
theorem create_id_sequence_witness :
    (new_task initState "Buy milk" "t0").result = .ok 1 ∧
    (runOps initState [.create "a" "t1", .delete (.int 1), .create "b" "t2"]).2 = [1, 2] := by
  constructor
  · exact (create_id_sequence.1 initState "Buy milk" "t0" (by decide)).1
  · rw [(create_id_sequence.2 [.create "a" "t1", .delete (.int 1), .create "b" "t2"]).1]
    decide

/-- Claim C3: every operation preserves the store invariant (every task id
at most count, ids unique across the sequence) and never decreases count. -/
theorem store_invariant_preserved (st : StoreState) (op : Op) (h : Inv st) :
    Inv (stepOp st op).1 ∧ st.count ≤ (stepOp st op).1.count := by
  obtain ⟨hb, hn⟩ := h
  cases op with
  | create d now =>
    by_cases hd : pyStripIsEmpty d = true
    · have hblank : new_task st d now = ⟨.error .invalidArgument, st, none⟩ := by
        simp [new_task, hd]
      simp only [stepOp, hblank]
      exact ⟨⟨hb, hn⟩, le_refl _⟩
    · have hd' : pyStripIsEmpty d = false := by simpa using hd
      simp only [stepOp, new_task_ok st d now hd']
      refine ⟨⟨?_, ?_⟩, by simp⟩
      · intro t ht
        rcases List.mem_append.mp ht with hin | hin
        · exact le_trans (hb t hin) (by simp)
        · simp only [List.mem_singleton] at hin
          rw [hin]
      · simp only [List.map_append, List.map_cons, List.map_nil]
        rw [List.nodup_append]
        refine ⟨hn, List.nodup_singleton _, ?_⟩
        intro x hx hy
        simp only [List.mem_singleton] at hy
        obtain ⟨u, hu, he⟩ := List.mem_map.mp hx
        have := hb u hu
        omega
  | update tid d s now =>
    refine ⟨⟨?_, ?_⟩, ?_⟩
    · intro t ht
      have hmem : t.id ∈ ((update_task st tid d s now).state.tasks).map Task.id :=
        List.mem_map_of_mem _ ht
      rw [update_task_map_id] at hmem
      obtain ⟨u, hu, he⟩ := List.mem_map.mp hmem
      rw [stepOp, update_task_count, ← he]
      exact hb u hu
    · show ((stepOp st (.update tid d s now)).1.tasks.map Task.id).Nodup
      rw [stepOp, update_task_map_id]
      exact hn
    · rw [stepOp, update_task_count]
  | delete tid =>
    have hstate : (stepOp st (.delete tid)).1 = st ∨
        ∃ n, (stepOp st (.delete tid)).1 =
          ⟨st.tasks.filter (fun t => t.id ≠ n), st.count⟩ := by
      simp only [stepOp]
      unfold delete_task
      cases hp : pyToInt tid with
      | none => exact Or.inl rfl
      | some n =>
        dsimp only
        split
        · exact Or.inr ⟨n, rfl⟩
        · exact Or.inr ⟨n, rfl⟩
    rcases hstate with hst | ⟨n, hst⟩
    · rw [hst]; exact ⟨⟨hb, hn⟩, le_refl _⟩
    · rw [hst]
      refine ⟨⟨?_, ?_⟩, le_refl _⟩
      · intro t ht
        exact hb t (List.mem_of_mem_filter ht)
      · exact List.Nodup.sublist ((List.filter_sublist _).map Task.id) hn
  | list f => exact ⟨⟨hb, hn⟩, le_refl _⟩

/-- Witness for store_invariant_preserved: one create step from the
initial state keeps the invariant and the counter. -/
theorem store_invariant_preserved_witness :
    Inv (stepOp initState (.create "a" "t")).1 ∧
    initState.count ≤ (stepOp initState (.create "a" "t")).1.count :=
  store_invariant_preserved initState (.create "a" "t") (by decide)

/-- Claim C6: after a successful delete of an id, deleting the same id
again raises NotFound, and under the store invariant no later create over
any operation sequence ever returns that id again. -/
theorem delete_then_delete_no_reuse (st : StoreState) (tid : PyId) (n : Int)
    (ops : List Op) (hinv : Inv st) (hid : pyToInt tid = some n)
    (hok : (delete_task st tid).result = .ok ()) :
    (delete_task (delete_task st tid).state tid).result = .error .notFound ∧
    ∀ i ∈ (runOps (delete_task st tid).state ops).2, n < i := by
  have hlen : (st.tasks.filter (fun t => t.id ≠ n)).length ≠ st.tasks.length := by
    intro heq
    unfold delete_task at hok
    rw [hid] at hok
    simp only [heq, if_pos] at hok
    cases hok
  have hstate : (delete_task st tid).state = ⟨st.tasks.filter (fun t => t.id ≠ n), st.count⟩ := by
    unfold delete_task
    rw [hid]
    simp only [if_neg hlen]
  obtain ⟨u, hu, hpu⟩ := filter_length_ne_exists (fun t => t.id ≠ n) st.tasks hlen
  have hun : u.id = n := by simpa using hpu
  have hbound : n ≤ st.count := by
    rw [← hun]
    exact hinv.1 u hu
  constructor
  · rw [hstate]
    unfold delete_task
    rw [hid]
    dsimp only
    rw [if_pos]
    rw [List.filter_eq_self.mpr]
    intro a ha
    have := List.of_mem_filter ha
    simpa using this
  · intro i hi
    have hids := (runOps_char (delete_task st tid).state ops).2
    rw [hids] at hi
    obtain ⟨j, _, hj⟩ := List.mem_map.mp hi
    have hcount : (delete_task st tid).state.count = st.count := by rw [hstate]
    rw [hcount] at hj
    rw [← hj]
    have : (0 : Int) ≤ (j : Int) := Int.natCast_nonneg j
    omega

/-- Witness for delete_then_delete_no_reuse at a one-task store followed
by one create. -/
theorem delete_then_delete_no_reuse_witness :
    (delete_task (delete_task ⟨[⟨1, "a", "todo", "t0", none⟩], 1⟩ (.int 1)).state
      (.int 1)).result = .error .notFound ∧
    (1 : Int) < 2 :=
  ⟨(delete_then_delete_no_reuse ⟨[⟨1, "a", "todo", "t0", none⟩], 1⟩ (.int 1) 1
      [.create "b" "t2"] (by decide) (by decide) (by decide)).1,
   (delete_then_delete_no_reuse ⟨[⟨1, "a", "todo", "t0", none⟩], 1⟩ (.int 1) 1
      [.create "b" "t2"] (by decide) (by decide) (by decide)).2 2 (by decide)⟩

/-- Witness for init_recovery_policy at the empty JSON object. -/
theorem init_recovery_policy_witness :
    storeInit .absent = .ok defaultData true ∧
    storeInit .empty = .ok defaultData true ∧
    storeInit .malformed = .ok defaultData true ∧
    (storeInit (.parsed (.obj [])) = .ok defaultData false ∨
      storeInit (.parsed (.obj [])) = .crash) ∧
    (storeInit (.parsed (.obj [])) = .crash ↔
      pyContains (.obj []) "tasks" = none ∨
      (pyContains (.obj []) "tasks" = some true ∧ pyContains (.obj []) "count" = none)) :=
  init_recovery_policy (.obj []) (by decide)

end TaskCli
